import Mathlib

/-!
Verification of the client logic in `src/static/main.js` of render-flask-ping.

The file embeds the data model (rows with per-kind file buckets), the pure
rendering functions (`countAllFiles`, `renderFilesCell`, `renderTable`, the
content-building part of `refresh`), the mutation handlers (`createRow`,
`deleteRow`, the delete-file handler, the instant-upload control) as explicit
state/trace functions, and the `api` response wrapper.  Event handlers cannot
live inside the rendered DOM value, so the rendered surface is a pure tree of
elements/text and the handlers are embedded as separate functions from the
relevant DOM state and the store outcome to the resulting state and the ordered
list of observable events (requests issued, alerts shown, refresh started,
exceptions escaping the handler).
-/

namespace RFP

/-- Metadata of one uploaded file as delivered in a snapshot (`f.id`,
`f.original_name` are the only properties the client reads). -/
structure FileMeta where
  id : Nat
  original_name : String
deriving DecidableEq, Repr

/-- One row of a fetched snapshot.  `files` models the JS object
`r.files`: `none` is an absent/null property (`r.files || {}` in the source),
and each entry of the association list is one object key with its bucket value
(`none` modelling a null bucket, handled by `files[k] || []`).  JS object keys
are unique; that fact is carried as a hypothesis (`WellFormedRow`) where it is
needed rather than baked into the type. -/
structure Row where
  id : Nat
  title : String
  category : String
  note : String
  created_at : Int
  files : Option (List (String × Option (List FileMeta)))
deriving DecidableEq, Repr

/-- One entry of the attachment kind registry. -/
structure KindEntry where
  key : String
  label : String
deriving DecidableEq, Repr

/-- `attachKinds` (main.js lines 24-31). -/
def attachKinds : List KindEntry :=
  [ ⟨"invoice", "인보이스"⟩,
    ⟨"work", "작업확인서"⟩,
    ⟨"inspect", "검수서"⟩,
    ⟨"other", "기타 서류"⟩ ]

/-- The keys of the attachment kind registry, in registry order. -/
def kindKeys : List String := attachKinds.map (fun e => e.key)

/-- JS property read `files[k]` on an object literal: the value of the entry
with key `k` (`none` when the property is absent, i.e. undefined). -/
def lookupKey (entries : List (String × Option (List FileMeta))) (k : String) :
    Option (Option (List FileMeta)) :=
  (entries.find? (fun e => e.1 == k)).map (fun e => e.2)

/-- `Object.keys` of the files object. -/
def objKeys (entries : List (String × Option (List FileMeta))) : List String :=
  entries.map (fun e => e.1)

/-- `v || []` applied to a property read: undefined (`none`) and a null bucket
(`some none`) both collapse to the empty list. -/
def bucketOrEmpty (v : Option (Option (List FileMeta))) : List FileMeta :=
  match v with
  | some (some l) => l
  | _ => []

/-- `countAllFiles` (main.js lines 56-63): for each row, `r.files || {}`, then
for each key of that object add the length of `files[k] || []`. -/
def countAllFiles (rows : List Row) : Nat :=
  rows.foldl
    (fun cnt r =>
      let files := r.files.getD []
      (objKeys files).foldl (fun c k => c + (bucketOrEmpty (lookupKey files k)).length) cnt)
    0

/-- The bucket rendered by `renderFilesCell` (main.js line 109):
`(row.files && row.files[kind]) ? row.files[kind] : []`. -/
def filesBucket (r : Row) (kind : String) : List FileMeta :=
  match r.files with
  | none => []
  | some entries => bucketOrEmpty (lookupKey entries kind)

/-- A rendered DOM node.  Event listeners registered through `el`'s `on*`
attributes are functions, not data; their behavior is embedded separately as
the mutation-handler models below, so they do not appear on the surface. -/
inductive Node where
  | elem (tag : String) (attrs : List (String × String)) (children : List Node)
  | text (s : String)
deriving Repr

/-- The DOM helper `el` (main.js lines 10-22) restricted to its data content:
string attributes are applied to the element and the children are appended in
order (the source's null-skipping and string-to-text-node coercion are applied
by the callers of this embedding, which pass explicit `Node.text` children). -/
def el (tag : String) (attrs : List (String × String)) (children : List Node) : Node :=
  .elem tag attrs children

/-- Models `Date.toLocaleString()` as a pure function of the timestamp; the
exact locale format is environment-defined and irrelevant to every claim. -/
def localeString (t : Int) : String := toString t

/-- The initial surface of `makeInstantUploadButton` (main.js lines 70-101):
a hidden file input plus an upload button inside a `div.uploader`.  The row id
and kind feed only the upload request built in the change handler, which is
embedded below as `uploadStart`/`uploadFinish`. -/
def makeInstantUploadButton (_rowId : Nat) (_kind : String) : Node :=
  el "div" [("class", "uploader")]
    [ el "button" [("class", "btn-ghost mini")] [.text "업로드"],
      el "input" [("type", "file"), ("style", "display:none")] [] ]

/-- One rendered file entry of a kind cell (main.js lines 110-121): a
download link plus a delete button inside a `div.fileRow`. -/
def fileRowNode (f : FileMeta) : Node :=
  el "div" [("class", "fileRow")]
    [ el "a" [("class", "fileLink"), ("href", "/api/download/" ++ toString f.id),
              ("target", "_blank")] [.text f.original_name],
      el "button" [("class", "btn-danger mini")] [.text "삭제"] ]

/-- `renderFilesCell` (main.js lines 103-124). -/
def renderFilesCell (row : Row) (kind : String) : Node :=
  el "div" [("class", "files")]
    (makeInstantUploadButton row.id kind :: (filesBucket row kind).map fileRowNode)

/-- The note cell body (main.js line 153): the note, or a placeholder blank. -/
def noteDiv (note : String) : Node :=
  if note != "" then el "div" [("class", "meta")] [.text note]
  else el "div" [("class", "meta")] [.text " "]

/-- One `tr` of the table body (main.js lines 145-164). -/
def renderRow (r : Row) : Node :=
  el "tr" []
    [ el "td" [] [el "div" [("class", "meta")] [.text (localeString r.created_at)]],
      el "td" [] [el "div" [] [.text r.title], noteDiv r.note],
      el "td" [] [el "span" [("class", "badge")] [.text r.category]],
      el "td" [] [renderFilesCell r "invoice"],
      el "td" [] [renderFilesCell r "work"],
      el "td" [] [renderFilesCell r "inspect"],
      el "td" [] [renderFilesCell r "other"],
      el "td" [] [el "button" [("class", "btn-danger mini")] [.text "행 삭제"]] ]

/-- The table header (main.js lines 128-142). -/
def theadNode : Node :=
  el "thead" []
    [ el "tr" []
        [ el "th" [] [.text "생성일"],
          el "th" [] [.text "제목 / 비고"],
          el "th" [] [.text "종류"],
          el "th" [] [.text "인보이스"],
          el "th" [] [.text "작업확인서"],
          el "th" [] [.text "검수서"],
          el "th" [] [.text "기타 서류"],
          el "th" [] [.text "관리"] ] ]

/-- `renderTable` (main.js lines 126-169). -/
def renderTable (rows : List Row) : Node :=
  el "table" [("class", "grid")] [theadNode, el "tbody" [] (rows.map renderRow)]

/-- A fetched snapshot (`GET /api/rows?group=...` response, §6):
`mode: "time"` carries a flat row list, `mode: "category"` carries the groups
object, embedded as its entry list in object-key order. -/
inductive Snapshot where
  | time (rows : List Row)
  | category (groups : List (String × List Row))
deriving Repr

/-- `Object.values(groups)` concatenated (main.js lines 184-185):
`let all = []; forEach(arr => all = all.concat(arr))`. -/
def concatGroups (groups : List (String × List Row)) : List Row :=
  groups.foldl (fun all g => all ++ g.2) []

/-- The row list a snapshot carries (the rows the badge counts over). -/
def snapshotRows : Snapshot → List Row
  | .time rows => rows
  | .category groups => concatGroups groups

/-- The pure content of `refresh` (main.js lines 171-199) after the fetch:
the number written to the summary badge and the children appended to the
cleared `content` element, per mode.  In category mode the badge is set from
the concatenation of all groups; with zero groups an explicit no-data node is
rendered; otherwise each group contributes a heading plus its table. -/
def buildContent : Snapshot → Nat × List Node
  | .time rows => (countAllFiles rows, [renderTable rows])
  | .category groups =>
      let total := countAllFiles (concatGroups groups)
      if groups.isEmpty then
        (total, [el "div" [("class", "meta")] [.text "데이터가 없습니다."]])
      else
        (total,
          groups.foldl
            (fun acc g =>
              acc ++ [el "div" [("class", "groupHead")] [.text ("📁 " ++ g.1)],
                      renderTable g.2])
            [])

/-- The value shown in the summary badge for a snapshot. -/
def badgeCount (data : Snapshot) : Nat := (buildContent data).1

/-- `refresh`'s DOM effect on the `content` element: `innerHTML = ""` removes
every existing child, then the freshly built content is appended — the old
children never flow into the result. -/
def refreshDOM (_oldChildren : List Node) (data : Snapshot) : List Node :=
  let cleared : List Node := []
  cleared ++ (buildContent data).2

mutual
/-- Number of rendered file entries (`div.fileRow` nodes) in a node tree. -/
def countFileRows : Node → Nat
  | .text _ => 0
  | .elem tag attrs children =>
      (if tag == "div" && attrs.contains ("class", "fileRow") then 1 else 0)
        + countFileRowsList children
def countFileRowsList : List Node → Nat
  | [] => 0
  | n :: ns => countFileRows n + countFileRowsList ns
end

/-- The count the spec's cross-check formula describes: the sum, over all rows
and all per-kind buckets of each row's files map, of the bucket lengths. -/
def specBucketSum (rows : List Row) : Nat :=
  (rows.map (fun r => ((r.files.getD []).map (fun e => (e.2.getD []).length)).sum)).sum

/-- A row as the store delivers it (§3 invariants): its files object has no
duplicate keys (JS object keys are unique) and every key is a registry kind. -/
def WellFormedRow (r : Row) : Prop :=
  (objKeys (r.files.getD [])).Nodup ∧ ∀ k ∈ objKeys (r.files.getD []), k ∈ kindKeys

/-! ### Mutation handlers

Each handler of main.js is an async function whose only interactions are the
store request, the refresh fetch, `alert`, `confirm`, and DOM field updates.
A handler execution is embedded as a function from its inputs (field values,
confirmation answer, selection) and the store outcome of its single request to
the ordered list of observable events plus its DOM effect. -/

/-- Outcome of one awaited `api(...)` call: it either returns or throws with
the message computed by the wrapper. -/
inductive ApiResult where
  | ok
  | err (msg : String)
deriving DecidableEq, Repr

/-- Observable events of one handler execution, in program order. -/
inductive Ev where
  | req (name : String)
  | completed (success : Bool)
  | alertShown (msg : String)
  | refreshStart
  | uncaughtErr (msg : String)
deriving DecidableEq, Repr

/-- The store requests a trace issued, in order. -/
def reqEvents (t : List Ev) : List String :=
  t.filterMap (fun e => match e with | .req n => some n | _ => none)

/-- The alerts a trace showed, in order. -/
def alertEvents (t : List Ev) : List String :=
  t.filterMap (fun e => match e with | .alertShown m => some m | _ => none)

/-- JS `String.prototype.trim` over the character sequence (Lean's
`String.trim` is byte-position based and does not reduce in the kernel; this
embedding is extensionally the same removal of leading and trailing
whitespace). -/
def jsTrim (s : String) : String :=
  ⟨((s.data.dropWhile Char.isWhitespace).reverse.dropWhile Char.isWhitespace).reverse⟩

/-- The three text inputs `createRow` reads (`#title`, `#category`, `#note`). -/
structure Fields where
  title : String
  category : String
  note : String
deriving DecidableEq, Repr

/-- Result of one `createRow` execution: its event trace and the final input
field values. -/
structure CreateRowResult where
  events : List Ev
  fields : Fields
deriving DecidableEq, Repr

/-- `createRow` (main.js lines 33-48): reads and trims the three fields; an
empty trimmed title alerts and returns before any request; otherwise the
create request is awaited — on success the title and note inputs are set to
the empty string and `refresh()` is called, on failure the exception escapes
the handler (there is no try/catch around the await). -/
def createRow (f : Fields) (outcome : ApiResult) : CreateRowResult :=
  let title := jsTrim f.title
  if title = "" then
    { events := [.alertShown "제목(필수)을 입력해주세요."], fields := f }
  else
    match outcome with
    | .ok =>
        { events := [.req "POST /api/rows", .completed true, .refreshStart],
          fields := { f with title := "", note := "" } }
    | .err m =>
        { events := [.req "POST /api/rows", .completed false, .uncaughtErr m],
          fields := f }

/-- `deleteRow` (main.js lines 50-54): a declined confirm returns with no
request; otherwise the delete is awaited — success calls `refresh()`, failure
escapes the handler uncaught (no try/catch). -/
def deleteRow (confirmed : Bool) (outcome : ApiResult) : List Ev :=
  if !confirmed then []
  else
    match outcome with
    | .ok => [.req "DELETE /api/rows/:id", .completed true, .refreshStart]
    | .err m => [.req "DELETE /api/rows/:id", .completed false, .uncaughtErr m]

/-- The per-file delete handler (main.js lines 112-118): a declined confirm
returns; otherwise the delete is awaited inside try/catch — success calls
`refresh()`, failure alerts the error message. -/
def deleteFile (confirmed : Bool) (outcome : ApiResult) : List Ev :=
  if !confirmed then []
  else
    match outcome with
    | .ok => [.req "DELETE /api/files/:id", .completed true, .refreshStart]
    | .err m => [.req "DELETE /api/files/:id", .completed false, .alertShown m]

/-- The mutable state of one upload control: the button's disabled flag and
label, and the hidden input's current file selection. -/
structure UploadCtl where
  btnDisabled : Bool
  btnLabel : String
  inputValue : Option String
deriving DecidableEq, Repr

/-- The upload control as `makeInstantUploadButton` creates it: enabled,
labelled 업로드, nothing selected. -/
def initCtl : UploadCtl := ⟨false, "업로드", none⟩

/-- A click on the visible button (main.js line 75) opens the file dialog via
`input.click()` only when the button is enabled; the browser delivers no click
to a disabled button. -/
def buttonClickOpensDialog (st : UploadCtl) : Bool := !st.btnDisabled

/-- The control state while the upload request is in flight (main.js lines
86-87): button disabled, busy label, selection still present. -/
def inflightState (st : UploadCtl) : UploadCtl :=
  { st with btnDisabled := true, btnLabel := "업로드중…" }

/-- First half of the change handler (main.js lines 77-89): with no selected
file it returns immediately (no request, no state change); otherwise it builds
the form data, disables the button, shows the busy label and issues the upload
request. -/
def uploadStart (st : UploadCtl) : Option (UploadCtl × Ev) :=
  match st.inputValue with
  | none => none
  | some _ => some (inflightState st, .req "POST /api/upload")

/-- Second half of the change handler (main.js lines 88-97): on success
`refresh()` is awaited, on failure the error is alerted; the `finally` block
re-enables the button, restores its label and clears the input's selection in
both cases. -/
def uploadFinish (st : UploadCtl) (outcome : ApiResult) : UploadCtl × List Ev :=
  let fin : UploadCtl := { st with btnDisabled := false, btnLabel := "업로드", inputValue := none }
  match outcome with
  | .ok => (fin, [.completed true, .refreshStart])
  | .err m => (fin, [.completed false, .alertShown m])

/-- One full execution of the change handler. -/
def uploadHandler (st : UploadCtl) (outcome : ApiResult) : UploadCtl × List Ev :=
  match uploadStart st with
  | none => (st, [])
  | some (inflight, reqEv) =>
      let fin := uploadFinish inflight outcome
      (fin.1, reqEv :: fin.2)

/-! ### The `api` wrapper -/

/-- A parsed JSON value (`JSON.parse` result). -/
inductive Json where
  | null
  | bool (b : Bool)
  | num (n : Int)
  | str (s : String)
  | arr (elems : List Json)
  | obj (entries : List (String × Json))
deriving Repr

/-- JS truthiness of a parsed JSON value. -/
def jsTruthy : Json → Bool
  | .null => false
  | .bool b => b
  | .num n => n != 0
  | .str s => s != ""
  | .arr _ => true
  | .obj _ => true

/-- JS string coercion `String(v)` of a parsed JSON value, as `new Error(v)`
applies to a non-string message. -/
def jsToString : Json → String
  | .null => "null"
  | .bool b => if b then "true" else "false"
  | .num n => toString n
  | .str s => s
  | .arr elems => String.intercalate "," (elems.attach.map (fun e => jsToString e.1))
  | .obj _ => "[object Object]"
decreasing_by
  have h := List.sizeOf_lt_of_mem e.2
  simp only [Json.arr.sizeOf_spec]
  omega

/-- `data` after line 5 of main.js: the parsed body when `JSON.parse`
succeeded, otherwise the raw response text. -/
inductive ApiData where
  | json (j : Json)
  | raw (txt : String)
deriving Repr

/-- `fetch`'s `res.ok`: status in the inclusive range 200-299. -/
def resOk (status : Nat) : Bool := 200 ≤ status && status ≤ 299

/-- `let data = ...; try { data = JSON.parse(txt) } catch { data = txt }`:
`parsed` is `some j` when the body text parses as the JSON value `j`,
`none` when `JSON.parse` throws. -/
def parseData (parsed : Option Json) (txt : String) : ApiData :=
  match parsed with
  | some j => .json j
  | none => .raw txt

/-- Property read `data?.error`: defined only when `data` is an object with an
`error` key; on a raw string, a primitive, an array or null it is undefined. -/
def dataErrorProp : ApiData → Option Json
  | .json (.obj entries) => (entries.find? (fun e => e.1 == "error")).map (fun e => e.2)
  | _ => none

/-- The thrown message on a non-ok response (main.js line 6):
`data?.error || "HTTP " + status` — the error property when it is truthy,
otherwise the synthesized status message. -/
def apiErrMessage (status : Nat) (data : ApiData) : String :=
  match dataErrorProp data with
  | some v => if jsTruthy v then jsToString v else "HTTP " ++ toString status
  | none => "HTTP " ++ toString status

/-- `api` (main.js lines 1-8) after the response text arrived: body parsing
never throws out of the wrapper (the catch turns a parse failure into the raw
text); a non-ok status throws the computed message; an ok status returns the
data. -/
def api (status : Nat) (parsed : Option Json) (txt : String) : Except String ApiData :=
  let data := parseData parsed txt
  if !resOk status then .error (apiErrMessage status data)
  else .ok data

/-! ### Time-mode ordering (store side) -/

/-- Rows ordered most-recent-first compare by `created_at` descending. -/
def byCreatedDesc (a b : Row) : Prop := b.created_at ≤ a.created_at

instance : DecidableRel byCreatedDesc :=
  fun a b => inferInstanceAs (Decidable (b.created_at ≤ a.created_at))

instance : IsTotal Row byCreatedDesc := ⟨fun a b => Int.le_total b.created_at a.created_at⟩

instance : IsTrans Row byCreatedDesc := ⟨fun _ _ _ hab hbc => le_trans hbc hab⟩

/-- Modelled from the spec: the server-side time-mode projection behind
`GET /api/rows?group=time` (§4.2, §6).  The Flask backend is not under `src/`
(the client in main.js renders `data.rows` in the order received), so the
store's ordering contract is embedded from the spec's words: the input
sequence ordered by `created_at` descending, stable for equal timestamps —
a stable sort by the descending comparison. -/
def timeProjection (rows : List Row) : List Row :=
  List.insertionSort byCreatedDesc rows

/-! ### Counting lemmas for the badge cross-check -/

/-- Folding an accumulator through additions is the sum of the mapped list. -/
theorem foldl_add_eq {α : Type} (h : α → Nat) (l : List α) (n : Nat) :
    l.foldl (fun c x => c + h x) n = n + (l.map h).sum := by
  induction l generalizing n with
  | nil => simp
  | cons x t ih => simp [List.foldl_cons, ih, Nat.add_assoc]

theorem bucketOrEmpty_some (v : Option (List FileMeta)) :
    bucketOrEmpty (some v) = v.getD [] := by
  cases v <;> rfl

theorem lookupKey_cons_self (k : String) (v : Option (List FileMeta))
    (es : List (String × Option (List FileMeta))) :
    lookupKey ((k, v) :: es) k = some v := by
  simp [lookupKey, List.find?_cons_of_pos]

theorem lookupKey_cons_ne (k₀ : String) (v₀ : Option (List FileMeta))
    (es : List (String × Option (List FileMeta))) (k : String) (h : k ≠ k₀) :
    lookupKey ((k₀, v₀) :: es) k = lookupKey es k := by
  have hne : ((k₀, v₀).1 == k) = false := by
    simp only [beq_eq_false_iff_ne]
    exact fun hk => h hk.symm
  simp [lookupKey, List.find?_cons_of_neg, hne]

theorem lookupKey_eq_none (es : List (String × Option (List FileMeta))) (k : String)
    (h : k ∉ objKeys es) : lookupKey es k = none := by
  have : es.find? (fun e => e.1 == k) = none := by
    rw [List.find?_eq_none]
    intro e he hbeq
    exact h (List.mem_map.mpr ⟨e, he, (beq_iff_eq.mp hbeq)⟩)
  simp [lookupKey, this]

/-- With unique object keys, iterating the keys and reading each property back
visits exactly the entry values. -/
theorem keysMap_eq_entriesMap (es : List (String × Option (List FileMeta)))
    (hnd : (objKeys es).Nodup) :
    (objKeys es).map (fun k => (bucketOrEmpty (lookupKey es k)).length)
      = es.map (fun e => (e.2.getD []).length) := by
  induction es with
  | nil => rfl
  | cons e es ih =>
    obtain ⟨k₀, v₀⟩ := e
    have hk : objKeys ((k₀, v₀) :: es) = k₀ :: objKeys es := rfl
    rw [hk] at hnd
    have hnotmem : k₀ ∉ objKeys es := (List.nodup_cons.mp hnd).1
    have hnd₂ : (objKeys es).Nodup := (List.nodup_cons.mp hnd).2
    rw [hk, List.map_cons, List.map_cons]
    refine congrArg₂ (· :: ·) ?_ ?_
    · rw [lookupKey_cons_self, bucketOrEmpty_some]
    · rw [← ih hnd₂]
      refine List.map_congr_left (fun k hkmem => ?_)
      rw [lookupKey_cons_ne k₀ v₀ es k (fun hkk => hnotmem (hkk ▸ hkmem))]

/-- Summing the looked-up bucket lengths over any duplicate-free key list that
covers the object's keys gives the sum of the entry bucket lengths. -/
theorem sum_over_keys (K : List String) (hK : K.Nodup)
    (es : List (String × Option (List FileMeta)))
    (hnd : (objKeys es).Nodup) (hsub : ∀ k ∈ objKeys es, k ∈ K) :
    ((K.map (fun k => (bucketOrEmpty (lookupKey es k)).length)).sum)
      = (es.map (fun e => (e.2.getD []).length)).sum := by
  induction es with
  | nil =>
    have : (K.map (fun k => (bucketOrEmpty (lookupKey ([] : List (String × Option (List FileMeta))) k)).length)) = K.map (fun _ => 0) := by
      refine List.map_congr_left (fun k _ => ?_)
      rfl
    simp [this]
  | cons e es ih =>
    obtain ⟨k₀, v₀⟩ := e
    have hk : objKeys ((k₀, v₀) :: es) = k₀ :: objKeys es := rfl
    rw [hk] at hnd hsub
    have hnotmem : k₀ ∉ objKeys es := (List.nodup_cons.mp hnd).1
    have hnd₂ : (objKeys es).Nodup := (List.nodup_cons.mp hnd).2
    have hsub₂ : ∀ k ∈ objKeys es, k ∈ K := fun k hkm => hsub k (List.mem_cons_of_mem _ hkm)
    have hk₀K : k₀ ∈ K := hsub k₀ (List.mem_cons_self k₀ _)
    have hperm : K.Perm (k₀ :: K.erase k₀) := List.perm_cons_erase hk₀K
    have herase : ∀ k ∈ K.erase k₀,
        (bucketOrEmpty (lookupKey ((k₀, v₀) :: es) k)).length
          = (bucketOrEmpty (lookupKey es k)).length := by
      intro k hkm
      have hne : k ≠ k₀ := ((List.Nodup.mem_erase_iff hK).mp hkm).1
      rw [lookupKey_cons_ne k₀ v₀ es k hne]
    have hsplit :
        (K.map (fun k => (bucketOrEmpty (lookupKey ((k₀, v₀) :: es) k)).length)).sum
          = (v₀.getD []).length
            + ((K.erase k₀).map (fun k => (bucketOrEmpty (lookupKey es k)).length)).sum := by
      rw [(hperm.map _).sum_eq, List.map_cons, List.sum_cons,
        lookupKey_cons_self, bucketOrEmpty_some, List.map_congr_left herase]
    have hzero : (bucketOrEmpty (lookupKey es k₀)).length = 0 := by
      rw [lookupKey_eq_none es k₀ hnotmem]
      rfl
    have herase_sum :
        ((K.erase k₀).map (fun k => (bucketOrEmpty (lookupKey es k)).length)).sum
          = (K.map (fun k => (bucketOrEmpty (lookupKey es k)).length)).sum := by
      rw [(hperm.map _).sum_eq, List.map_cons, List.sum_cons, hzero]
      omega
    rw [hsplit, herase_sum, ih hnd₂ hsub₂, List.map_cons, List.sum_cons]

theorem countFRL_cons (n : Node) (ns : List Node) :
    countFileRowsList (n :: ns) = countFileRows n + countFileRowsList ns := rfl

theorem countFRL_append (a b : List Node) :
    countFileRowsList (a ++ b) = countFileRowsList a + countFileRowsList b := by
  induction a with
  | nil => simp [countFileRowsList]
  | cons n ns ih => simp [List.cons_append, countFRL_cons, ih, Nat.add_assoc]

theorem countFR_fileRowNode (f : FileMeta) : countFileRows (fileRowNode f) = 1 := rfl

theorem countFR_uploadButton (i : Nat) (k : String) :
    countFileRows (makeInstantUploadButton i k) = 0 := rfl

theorem countFRL_map_fileRowNode (l : List FileMeta) :
    countFileRowsList (l.map fileRowNode) = l.length := by
  induction l with
  | nil => rfl
  | cons f t ih =>
    rw [List.map_cons, countFRL_cons, countFR_fileRowNode, ih, List.length_cons]
    omega

theorem countFR_cell (r : Row) (kind : String) :
    countFileRows (renderFilesCell r kind) = (filesBucket r kind).length := by
  show 0 + (0 + countFileRowsList ((filesBucket r kind).map fileRowNode))
      = (filesBucket r kind).length
  rw [countFRL_map_fileRowNode]
  omega

theorem countFR_noteDiv (s : String) : countFileRows (noteDiv s) = 0 := by
  unfold noteDiv
  split <;> rfl

theorem countFR_renderRow (r : Row) :
    countFileRows (renderRow r)
      = (filesBucket r "invoice").length + ((filesBucket r "work").length
          + ((filesBucket r "inspect").length + (filesBucket r "other").length)) := by
  simp only [renderRow, el, countFileRows.eq_2, countFileRows.eq_1, countFileRowsList]
  simp [countFR_noteDiv, countFR_cell, Nat.add_assoc]

theorem countFRL_eq_sum (l : List Node) :
    countFileRowsList l = (l.map countFileRows).sum := by
  induction l with
  | nil => rfl
  | cons n ns ih => rw [countFRL_cons, List.map_cons, List.sum_cons, ih]

theorem countFR_thead : countFileRows theadNode = 0 := rfl

theorem countFR_renderTable (rows : List Row) :
    countFileRows (renderTable rows)
      = (rows.map (fun r => countFileRows (renderRow r))).sum := by
  simp only [renderTable, el, countFileRows.eq_2, countFileRowsList]
  rw [countFR_thead, countFRL_eq_sum, List.map_map]
  simp [Function.comp_def]

theorem filesBucket_eq (r : Row) (k : String) :
    filesBucket r k = bucketOrEmpty (lookupKey (r.files.getD []) k) := by
  unfold filesBucket
  cases hf : r.files <;> rfl

/-- For a well-formed row, the file entries its rendered `tr` shows across the
four kind cells are exactly the entries of its files map. -/
theorem renderRow_count_wf (r : Row) (h : WellFormedRow r) :
    countFileRows (renderRow r)
      = ((r.files.getD []).map (fun e => (e.2.getD []).length)).sum := by
  rw [countFR_renderRow]
  have hkinds :
      (kindKeys.map (fun k => (bucketOrEmpty (lookupKey (r.files.getD []) k)).length)).sum
        = (filesBucket r "invoice").length + ((filesBucket r "work").length
            + ((filesBucket r "inspect").length + (filesBucket r "other").length)) := by
    simp [kindKeys, attachKinds, filesBucket_eq]
  rw [← hkinds]
  exact sum_over_keys kindKeys (by decide) _ h.1 h.2

/-- With unique bucket keys per row, the badge loop computes the spec's
cross-check sum. -/
theorem countAllFiles_eq_spec (rows : List Row)
    (h : ∀ r ∈ rows, (objKeys (r.files.getD [])).Nodup) :
    countAllFiles rows = specBucketSum rows := by
  unfold countAllFiles specBucketSum
  rw [List.foldl_ext _
    (fun cnt r => cnt + ((r.files.getD []).map (fun e => (e.2.getD []).length)).sum) 0
    (fun c r hr => by
      show (objKeys (r.files.getD [])).foldl
          (fun c k => c + (bucketOrEmpty (lookupKey (r.files.getD []) k)).length) c = _
      rw [foldl_add_eq, keysMap_eq_entriesMap _ (h r hr)]),
    foldl_add_eq]
  omega

theorem specBucketSum_flatten (L : List (List Row)) :
    specBucketSum L.flatten = (L.map specBucketSum).sum := by
  unfold specBucketSum
  rw [List.map_flatten, List.sum_flatten, List.map_map]
  rfl

theorem concatGroups_eq_flatten (groups : List (String × List Row)) :
    concatGroups groups = (groups.map (fun g => g.2)).flatten := by
  unfold concatGroups
  suffices h : ∀ init : List Row,
      groups.foldl (fun all g => all ++ g.2) init
        = init ++ (groups.map (fun g => g.2)).flatten by
    simpa using h []
  induction groups with
  | nil => intro init; simp
  | cons g gs ih => intro init; simp [List.foldl_cons, ih]

/-- The per-group headings contribute no file entries, so the category-mode
content counts exactly the per-group table counts. -/
theorem categoryContent_count (groups : List (String × List Row)) :
    countFileRowsList
        (groups.foldl
          (fun acc g =>
            acc ++ [el "div" [("class", "groupHead")] [.text ("📁 " ++ g.1)],
                    renderTable g.2])
          [])
      = (groups.map (fun g => countFileRows (renderTable g.2))).sum := by
  suffices h : ∀ init : List Node,
      countFileRowsList
          (groups.foldl
            (fun acc g =>
              acc ++ [el "div" [("class", "groupHead")] [.text ("📁 " ++ g.1)],
                      renderTable g.2])
            init)
        = countFileRowsList init
            + (groups.map (fun g => countFileRows (renderTable g.2))).sum by
    simpa [countFileRowsList] using h []
  induction groups with
  | nil => intro init; simp [countFileRowsList]
  | cons g gs ih =>
    intro init
    rw [List.foldl_cons, ih, countFRL_append]
    have hhd : countFileRowsList
        [el "div" [("class", "groupHead")] [.text ("📁 " ++ g.1)], renderTable g.2]
          = countFileRows (renderTable g.2) := by
      show 0 + (countFileRows (renderTable g.2) + 0) = _
      omega
    rw [hhd, List.map_cons, List.sum_cons]
    omega

/-! ### Stability of the time-mode sort -/

theorem filter_orderedInsert_pos (p : Row → Bool) (a : Row) (l : List Row)
    (hpa : p a = true) (hr : ∀ x, p x = true → byCreatedDesc a x) :
    (List.orderedInsert byCreatedDesc a l).filter p = a :: l.filter p := by
  induction l with
  | nil => simp [List.orderedInsert, hpa]
  | cons b t ih =>
    by_cases hab : byCreatedDesc a b
    · simp only [List.orderedInsert, if_pos hab]
      simp [List.filter_cons, hpa]
    · have hpb : p b = false := by
        cases hpb : p b
        · rfl
        · exact absurd (hr b hpb) hab
      simp only [List.orderedInsert, if_neg hab]
      simp [List.filter_cons, hpb, ih]

theorem filter_orderedInsert_neg (p : Row → Bool) (a : Row) (l : List Row)
    (hpa : p a = false) :
    (List.orderedInsert byCreatedDesc a l).filter p = l.filter p := by
  induction l with
  | nil => simp [List.orderedInsert, List.filter_cons, hpa]
  | cons b t ih =>
    by_cases hab : byCreatedDesc a b
    · simp only [List.orderedInsert, if_pos hab]
      simp [List.filter_cons, hpa]
    · simp only [List.orderedInsert, if_neg hab]
      simp [List.filter_cons, ih]

/-- A stable-sort filter law: filtering by a predicate whose satisfying rows
are pairwise tied under the sort relation commutes with the insertion sort. -/
theorem filter_insertionSort (p : Row → Bool)
    (hp : ∀ x y, p x = true → p y = true → byCreatedDesc x y) (l : List Row) :
    (List.insertionSort byCreatedDesc l).filter p = l.filter p := by
  induction l with
  | nil => rfl
  | cons a t ih =>
    simp only [List.insertionSort]
    cases hpa : p a
    · rw [filter_orderedInsert_neg p a _ hpa, ih]
      simp [List.filter_cons, hpa]
    · rw [filter_orderedInsert_pos p a _ hpa (fun x hx => hp a x hpa hx), ih]
      simp [List.filter_cons, hpa]

/-! ### The refresh-after-mutation checker -/

/-- Scans a trace left to right; `refreshStart` is admissible only after some
`completed` event has been seen, i.e. only after the outcome of the awaited
store mutation is known. -/
def refreshAfterCompletedAux : Bool → List Ev → Bool
  | _, [] => true
  | _, Ev.completed _ :: t => refreshAfterCompletedAux true t
  | seen, Ev.refreshStart :: t => seen && refreshAfterCompletedAux seen t
  | seen, _ :: t => refreshAfterCompletedAux seen t

/-- Every `refreshStart` in the trace comes strictly after a `completed`. -/
def refreshAfterCompleted (t : List Ev) : Bool := refreshAfterCompletedAux false t

instance (r : Row) : Decidable (WellFormedRow r) := by
  unfold WellFormedRow
  infer_instance

/-! ### The claims -/

/-- C1: for every fetched snapshot whose rows satisfy the store contract
(unique bucket keys, every key a registry kind), the summary-badge total
equals the sum over all rows and all kinds of the per-kind bucket lengths,
and that total equals the number of file entries (`div.fileRow` nodes)
rendered across all kind cells of the produced view — in time mode and in
category mode alike. -/
theorem c1_badge_count_cross_check (data : Snapshot)
    (hwf : ∀ r ∈ snapshotRows data, WellFormedRow r) :
    badgeCount data = specBucketSum (snapshotRows data)
      ∧ countFileRowsList (buildContent data).2 = badgeCount data := by
  cases data with
  | time rows =>
    have hwf₁ : ∀ r ∈ rows, WellFormedRow r := hwf
    have hspec : countAllFiles rows = specBucketSum rows :=
      countAllFiles_eq_spec rows (fun r hr => (hwf₁ r hr).1)
    refine ⟨hspec, ?_⟩
    have hone : countFileRowsList (buildContent (Snapshot.time rows)).2
        = countFileRows (renderTable rows) := by
      show countFileRows (renderTable rows) + 0 = _
      omega
    rw [hone, countFR_renderTable,
      List.map_congr_left (fun r hr => renderRow_count_wf r (hwf₁ r hr))]
    exact hspec.symm
  | category groups =>
    have hwf₂ : ∀ r ∈ concatGroups groups, WellFormedRow r := hwf
    have hspec : countAllFiles (concatGroups groups) = specBucketSum (concatGroups groups) :=
      countAllFiles_eq_spec _ (fun r hr => (hwf₂ r hr).1)
    by_cases hg : groups = []
    · subst hg
      exact ⟨hspec, rfl⟩
    · have hne : groups.isEmpty = false := by
        simpa [List.isEmpty_iff] using hg
      have hmem : ∀ g ∈ groups, ∀ r ∈ g.2, r ∈ concatGroups groups := by
        intro g hg' r hr
        rw [concatGroups_eq_flatten]
        exact List.mem_flatten.mpr ⟨g.2, List.mem_map.mpr ⟨g, hg', rfl⟩, hr⟩
      have hsum : (groups.map (fun g => countFileRows (renderTable g.2))).sum
          = specBucketSum (concatGroups groups) := by
        rw [concatGroups_eq_flatten, specBucketSum_flatten, List.map_map]
        refine congrArg List.sum (List.map_congr_left (fun g hg' => ?_))
        rw [countFR_renderTable,
          List.map_congr_left (fun r hr => renderRow_count_wf r (hwf₂ r (hmem g hg' r hr)))]
        rfl
      have hcontent : (buildContent (Snapshot.category groups)).2
          = groups.foldl
              (fun acc g =>
                acc ++ [el "div" [("class", "groupHead")] [.text ("📁 " ++ g.1)],
                        renderTable g.2])
              [] := by
        simp [buildContent, hne]
      have hbadge : badgeCount (Snapshot.category groups)
          = countAllFiles (concatGroups groups) := by
        simp [badgeCount, buildContent, hne]
      rw [hbadge, hcontent, categoryContent_count, hsum]
      exact ⟨hspec, hspec.symm⟩

/-- Witness for C1: a concrete one-row time snapshot satisfying the
well-formedness hypothesis. -/
theorem c1_badge_count_cross_check_witness :
    (∀ r ∈ snapshotRows (Snapshot.time
        [{ id := 1, title := "t", category := "c", note := "",
           created_at := 0,
           files := some [("invoice", some [⟨10, "a.pdf"⟩]), ("work", some [])] }]),
      WellFormedRow r)
    ∧ (badgeCount (Snapshot.time
          [{ id := 1, title := "t", category := "c", note := "",
             created_at := 0,
             files := some [("invoice", some [⟨10, "a.pdf"⟩]), ("work", some [])] }])
        = specBucketSum (snapshotRows (Snapshot.time
            [{ id := 1, title := "t", category := "c", note := "",
               created_at := 0,
               files := some [("invoice", some [⟨10, "a.pdf"⟩]), ("work", some [])] }]))
      ∧ countFileRowsList (buildContent (Snapshot.time
              [{ id := 1, title := "t", category := "c", note := "",
                 created_at := 0,
                 files := some [("invoice", some [⟨10, "a.pdf"⟩]), ("work", some [])] }])).2
          = badgeCount (Snapshot.time
              [{ id := 1, title := "t", category := "c", note := "",
                 created_at := 0,
                 files := some [("invoice", some [⟨10, "a.pdf"⟩]), ("work", some [])] }])) :=
  ⟨by decide, c1_badge_count_cross_check _ (by decide)⟩

/-- C2 counterexample: a failing `deleteRow` mutation shows no alert at all —
the rejection escapes the handler uncaught — so not every mutation error is
surfaced to the user via a blocking notification. -/
theorem c2_counterexample :
    alertEvents (deleteRow true (ApiResult.err "db locked")) = []
      ∧ Ev.uncaughtErr "db locked" ∈ deleteRow true (ApiResult.err "db locked") := by
  constructor
  · rfl
  · decide

/-- C2 (amended): failures of the upload and delete-file mutations are alerted;
`createRow` alerts only its pre-request validation failure while its store
errors, like `deleteRow`'s, escape the handler uncaught with no notification;
no mutation is retried — every handler issues at most one store request. -/
theorem c2_mutation_error_policy (m sel : String) (f : Fields) (conf : Bool)
    (ht : jsTrim f.title ≠ "") (outcome : ApiResult) :
    alertEvents (uploadHandler { initCtl with inputValue := some sel } (ApiResult.err m)).2 = [m]
      ∧ alertEvents (deleteFile true (ApiResult.err m)) = [m]
      ∧ alertEvents (createRow f (ApiResult.err m)).events = []
      ∧ Ev.uncaughtErr m ∈ (createRow f (ApiResult.err m)).events
      ∧ alertEvents (deleteRow true (ApiResult.err m)) = []
      ∧ Ev.uncaughtErr m ∈ deleteRow true (ApiResult.err m)
      ∧ (reqEvents (createRow f outcome).events).length ≤ 1
      ∧ (reqEvents (deleteRow conf outcome)).length ≤ 1
      ∧ (reqEvents (deleteFile conf outcome)).length ≤ 1
      ∧ (reqEvents (uploadHandler { initCtl with inputValue := some sel } outcome).2).length ≤ 1 := by
  have hcr : (createRow f (ApiResult.err m)).events
      = [.req "POST /api/rows", .completed false, .uncaughtErr m] := by
    simp only [createRow]
    rw [if_neg ht]
  have hcr₂ : ∀ o, (reqEvents (createRow f o).events).length ≤ 1 := by
    intro o
    simp only [createRow]
    by_cases h : jsTrim f.title = ""
    · rw [if_pos h]; simp [reqEvents]
    · rw [if_neg h]; cases o <;> simp [reqEvents]
  refine ⟨rfl, rfl, ?_, ?_, rfl, by simp [deleteRow], hcr₂ outcome, ?_, ?_, ?_⟩
  · rw [hcr]; rfl
  · rw [hcr]; simp
  · unfold deleteRow; cases conf
    · simp [reqEvents]
    · cases outcome <;> simp [reqEvents]
  · unfold deleteFile; cases conf
    · simp [reqEvents]
    · cases outcome <;> simp [reqEvents]
  · unfold uploadHandler uploadStart
    cases outcome <;> simp [uploadFinish, reqEvents]

/-- Witness for C2 (amended) at concrete inputs. -/
theorem c2_mutation_error_policy_witness :
    jsTrim "Title" ≠ ""
      ∧ alertEvents (uploadHandler { initCtl with inputValue := some "a.pdf" }
          (ApiResult.err "disk full")).2 = ["disk full"] :=
  ⟨by decide,
    (c2_mutation_error_policy "disk full" "a.pdf" ⟨"Title", "c", "n"⟩ true
      (by decide) ApiResult.ok).1⟩

/-- C3: the time-mode view is the fetched row list ordered by `created_at`
descending (non-increasing), it is a permutation of the input, the order is
stable for equal timestamps, and the client renders exactly that list, in that
order, as the single table body with no sub-grouping. -/
theorem c3_time_mode_ordering (rows : List Row) :
    (timeProjection rows).Perm rows
      ∧ (timeProjection rows).Sorted byCreatedDesc
      ∧ (∀ t : Int, (timeProjection rows).filter (fun r => r.created_at == t)
            = rows.filter (fun r => r.created_at == t))
      ∧ buildContent (Snapshot.time (timeProjection rows))
          = (countAllFiles (timeProjection rows),
             [el "table" [("class", "grid")]
                [theadNode, el "tbody" [] ((timeProjection rows).map renderRow)]]) := by
  refine ⟨List.perm_insertionSort _ _, List.sorted_insertionSort _ _, ?_, rfl⟩
  intro t
  refine filter_insertionSort _ (fun x y hx hy => ?_) _
  simp only [beq_iff_eq] at hx hy
  simp [byCreatedDesc, hx, hy]

/-- C4: an empty-after-trim title is rejected with the validation alert before
any store request is issued. -/
theorem c4_empty_title_validation (f : Fields) (outcome : ApiResult)
    (h : jsTrim f.title = "") :
    reqEvents (createRow f outcome).events = []
      ∧ (createRow f outcome).events = [Ev.alertShown "제목(필수)을 입력해주세요."] := by
  simp only [createRow]
  rw [if_pos h]
  exact ⟨rfl, rfl⟩

/-- Witness for C4: a whitespace-only title. -/
theorem c4_empty_title_validation_witness :
    jsTrim " " = ""
      ∧ reqEvents (createRow ⟨" ", "Cat", "Note"⟩ ApiResult.ok).events = []
      ∧ (createRow ⟨" ", "Cat", "Note"⟩ ApiResult.ok).events
          = [Ev.alertShown "제목(필수)을 입력해주세요."] :=
  ⟨by decide, c4_empty_title_validation ⟨" ", "Cat", "Note"⟩ ApiResult.ok (by decide)⟩

/-- C5 counterexample: after a successful `createRow` the category input still
holds its old value — the source clears only the title and note inputs — so
the claim that all input fields used for the request are cleared is false. -/
theorem c5_counterexample :
    (createRow ⟨"Title", "exterior", "note text"⟩ ApiResult.ok).fields
        = ⟨"", "exterior", ""⟩
      ∧ ("exterior" : String) ≠ "" := by
  constructor
  · decide
  · decide

/-- C5 (amended): on success `createRow` clears the title and note inputs,
leaves the category input unchanged, and triggers a refresh. -/
theorem c5_success_clears_title_note (f : Fields) (h : jsTrim f.title ≠ "") :
    (createRow f ApiResult.ok).fields = { f with title := "", note := "" }
      ∧ Ev.refreshStart ∈ (createRow f ApiResult.ok).events := by
  simp only [createRow]
  rw [if_neg h]
  exact ⟨rfl, by simp⟩

/-- Witness for C5 (amended). -/
theorem c5_success_clears_title_note_witness :
    jsTrim "Title" ≠ ""
      ∧ (createRow ⟨"Title", "exterior", "note text"⟩ ApiResult.ok).fields
          = { Fields.mk "Title" "exterior" "note text" with title := "", note := "" }
      ∧ Ev.refreshStart ∈ (createRow ⟨"Title", "exterior", "note text"⟩ ApiResult.ok).events :=
  ⟨by decide, c5_success_clears_title_note ⟨"Title", "exterior", "note text"⟩ (by decide)⟩

/-- C6: in every execution of each of the four mutation handlers, a
`refreshStart` event occurs only strictly after the mutation's `completed`
event — the refresh fetch is never issued before the store mutation's outcome
is known. -/
theorem c6_refresh_after_mutation (f : Fields) (confirmed : Bool)
    (st : UploadCtl) (outcome : ApiResult) :
    refreshAfterCompleted (createRow f outcome).events = true
      ∧ refreshAfterCompleted (deleteRow confirmed outcome) = true
      ∧ refreshAfterCompleted (deleteFile confirmed outcome) = true
      ∧ refreshAfterCompleted (uploadHandler st outcome).2 = true := by
  refine ⟨?_, ?_, ?_, ?_⟩
  · simp only [createRow]
    by_cases h : jsTrim f.title = ""
    · rw [if_pos h]; rfl
    · rw [if_neg h]; cases outcome <;> rfl
  · unfold deleteRow; cases confirmed
    · rfl
    · cases outcome <;> rfl
  · unfold deleteFile; cases confirmed
    · rfl
    · cases outcome <;> rfl
  · unfold uploadHandler uploadStart
    cases hsel : st.inputValue
    · rfl
    · cases outcome <;> rfl

/-- C7: the upload control is a no-op with no selection; with a selection the
request goes out from a state whose button is disabled and busy-labelled, a
second trigger on that in-flight control opens no file dialog (so at most one
request per handler run), and completion — success or failure — re-enables the
button, restores its label and clears the selection. -/
theorem c7_upload_control (st : UploadCtl) (sel : String) (outcome : ApiResult) :
    (st.inputValue = none → uploadHandler st outcome = (st, []))
      ∧ (st.inputValue = some sel →
          uploadStart st = some (inflightState st, Ev.req "POST /api/upload")
            ∧ (inflightState st).btnDisabled = true
            ∧ (inflightState st).btnLabel = "업로드중…"
            ∧ buttonClickOpensDialog (inflightState st) = false
            ∧ (reqEvents (uploadHandler st outcome).2).length ≤ 1
            ∧ (uploadFinish (inflightState st) outcome).1.btnDisabled = false
            ∧ (uploadFinish (inflightState st) outcome).1.btnLabel = "업로드"
            ∧ (uploadFinish (inflightState st) outcome).1.inputValue = none) := by
  constructor
  · intro h
    unfold uploadHandler uploadStart
    rw [h]
  · intro h
    have hstart : uploadStart st = some (inflightState st, Ev.req "POST /api/upload") := by
      unfold uploadStart
      rw [h]
    refine ⟨hstart, rfl, rfl, rfl, ?_, ?_, ?_, ?_⟩
    · unfold uploadHandler
      rw [hstart]
      cases outcome <;> simp [uploadFinish, reqEvents]
    · unfold uploadFinish; cases outcome <;> rfl
    · unfold uploadFinish; cases outcome <;> rfl
    · unfold uploadFinish; cases outcome <;> rfl

/-- Witness for C7 at concrete control states, selections and outcomes. -/
theorem c7_upload_control_witness :
    uploadHandler ⟨false, "업로드", none⟩ ApiResult.ok = (⟨false, "업로드", none⟩, [])
      ∧ buttonClickOpensDialog (inflightState ⟨false, "업로드", some "a.pdf"⟩) = false
      ∧ (uploadFinish (inflightState ⟨false, "업로드", some "a.pdf"⟩)
            (ApiResult.err "disk full")).1.inputValue = none :=
  ⟨(c7_upload_control ⟨false, "업로드", none⟩ "a.pdf" ApiResult.ok).1 rfl,
    ((c7_upload_control ⟨false, "업로드", some "a.pdf"⟩ "a.pdf"
        (ApiResult.err "disk full")).2 rfl).2.2.2.1,
    ((c7_upload_control ⟨false, "업로드", some "a.pdf"⟩ "a.pdf"
        (ApiResult.err "disk full")).2 rfl).2.2.2.2.2.2.2⟩

/-- C8: the refresh render path clears the target and rebuilds it purely from
the projected data, so its result never depends on the previously rendered
children and rendering twice with the same data yields the identical surface
with no accumulated duplicates. -/
theorem c8_render_idempotent (old₁ old₂ : List Node) (data : Snapshot) :
    refreshDOM (refreshDOM old₁ data) data = refreshDOM old₁ data
      ∧ refreshDOM old₁ data = refreshDOM old₂ data :=
  ⟨rfl, rfl⟩

/-- C9 counterexample: a 500 response whose body parses as the error shape
with an empty-string `error` field is reported as the generic "HTTP 500", not
as the error field's value — so the message is not always taken from the
`error` field when the body parses as that shape. -/
theorem c9_counterexample :
    api 500 (some (Json.obj [("error", Json.str "")])) "raw"
        = Except.error "HTTP 500"
      ∧ ("" : String) ≠ "HTTP 500" := by
  constructor
  · rfl
  · decide

/-- C9 (amended): on a non-success response the thrown message is the string
coercion of the body's `error` property whenever that property is truthy — in
particular exactly the error field when it is a nonempty string — and
otherwise (error property falsy, e.g. the empty string, or absent, or the body
not an object or not parseable) it is the generic "HTTP status" message. -/
theorem c9_error_message_policy (status : Nat) (parsed : Option Json) (txt : String)
    (hok : resOk status = false) :
    (∀ s, dataErrorProp (parseData parsed txt) = some (Json.str s) → s ≠ "" →
        api status parsed txt = Except.error s)
      ∧ (∀ v, dataErrorProp (parseData parsed txt) = some v → jsTruthy v = true →
          api status parsed txt = Except.error (jsToString v))
      ∧ (∀ v, dataErrorProp (parseData parsed txt) = some v → jsTruthy v = false →
          api status parsed txt = Except.error ("HTTP " ++ toString status))
      ∧ (dataErrorProp (parseData parsed txt) = none →
          api status parsed txt = Except.error ("HTTP " ++ toString status)) := by
  have hthrow : api status parsed txt
      = Except.error (apiErrMessage status (parseData parsed txt)) := by
    unfold api
    rw [hok]
    rfl
  refine ⟨?_, ?_, ?_, ?_⟩
  · intro s hfind hs
    have htr : jsTruthy (Json.str s) = true := by
      simp [jsTruthy, hs]
    rw [hthrow]
    unfold apiErrMessage
    rw [hfind]
    simp [htr, jsToString]
  · intro v hfind htr
    rw [hthrow]
    unfold apiErrMessage
    rw [hfind]
    simp [htr]
  · intro v hfind htr
    rw [hthrow]
    unfold apiErrMessage
    rw [hfind]
    simp [htr]
  · intro hfind
    rw [hthrow]
    unfold apiErrMessage
    rw [hfind]

/-- Witness for C9 (amended): a 404 with a nonempty error field uses the field;
a 500 with an unparseable body uses the generic message. -/
theorem c9_error_message_policy_witness :
    resOk 404 = false
      ∧ api 404 (some (Json.obj [("error", Json.str "row not found")])) "ignored"
          = Except.error "row not found"
      ∧ api 500 none "<html>oops</html>"
          = Except.error ("HTTP " ++ toString 500) :=
  ⟨by decide,
    (c9_error_message_policy 404 (some (Json.obj [("error", Json.str "row not found")]))
        "ignored" (by decide)).1 "row not found" rfl (by decide),
    (c9_error_message_policy 500 none "<html>oops</html>" (by decide)).2.2.2 rfl⟩

/-- C10: the wrapper throws exactly on non-success statuses; every success
status returns normally with the JSON-parsed body when the body parses and
with the raw text otherwise — an unparseable success body never raises. -/
theorem c10_api_throws_iff_not_ok (status : Nat) (parsed : Option Json) (txt : String) :
    (resOk status = true →
        api status parsed txt = Except.ok (parseData parsed txt)
          ∧ (parsed = none → api status parsed txt = Except.ok (ApiData.raw txt)))
      ∧ (resOk status = false → ∃ msg, api status parsed txt = Except.error msg) := by
  constructor
  · intro h
    have hret : api status parsed txt = Except.ok (parseData parsed txt) := by
      unfold api
      rw [h]
      rfl
    refine ⟨hret, fun hp => ?_⟩
    rw [hret, hp]
    rfl
  · intro h
    refine ⟨apiErrMessage status (parseData parsed txt), ?_⟩
    unfold api
    rw [h]
    rfl

/-- Witness for C10: a 200 with an unparseable body returns the raw text; a
404 throws. -/
theorem c10_api_throws_iff_not_ok_witness :
    resOk 200 = true
      ∧ api 200 none "not json" = Except.ok (ApiData.raw "not json")
      ∧ (∃ msg, api 404 none "x" = Except.error msg) :=
  ⟨by decide,
    ((c10_api_throws_iff_not_ok 200 none "not json").1 (by decide)).2 rfl,
    (c10_api_throws_iff_not_ok 404 none "x").2 (by decide)⟩

end RFP
